import Mathlib

/-!
Shallow embedding of the map/trail engine of `FleetCanvas.tsx` and
`FleetCanvas2.tsx` (react-sqlite-telemetry).  JavaScript numbers are
modelled as exact rationals; the DOM/canvas side effects are dropped and
the mutable refs (`viewRef`, `trailsRef`, `userAdjustedRef`) become
explicit state that the embedded handlers thread through.
-/

namespace Fleet

/-- A 2-D point, `type Vec = { x: number; y: number }`. -/
@[ext]
structure Vec where
  x : ℚ
  y : ℚ
deriving DecidableEq

/-- JavaScript helper `function clamp(x, a, b) { return Math.max(a, Math.min(b, x)); }` -/
def clamp (x a b : ℚ) : ℚ := max a (min b x)

/-- JavaScript helper `function clamp01(x) { return clamp(x, 0, 1); }` -/
def clamp01 (x : ℚ) : ℚ := clamp x 0 1

/-- One journey hop, `type Segment = { jid; from; to; depMs; arrMs }`
(`from`/`to` are Lean keywords, renamed `fromPt`/`toPt`). -/
structure Segment where
  jid : String
  fromPt : Vec
  toPt : Vec
  depMs : ℚ
  arrMs : ℚ
deriving DecidableEq

/-- Per-ship trail, `type ShipTrail = { recent: Segment[]; older: Segment[] }`
(the transient `active` field is recomputed every frame and not part of
the stored state). -/
structure ShipTrail where
  recent : List Segment
  older : List Segment
deriving DecidableEq

/-- Source constant `const RECENT_LIMIT = 5;`. -/
def RECENT_LIMIT : Nat := 5

/-- Camera state of `FleetCanvas.tsx` (`type View`); `_needsFit?: boolean`
is only ever read through JavaScript truthiness there after being
assigned `true` or `false`, so it is a `Bool` here (named `needsFit`). -/
structure View where
  scale : ℚ
  tx : ℚ
  ty : ℚ
  pad : ℚ
  minX : ℚ
  maxX : ℚ
  minY : ℚ
  maxY : ℚ
  needsFit : Bool
deriving DecidableEq

/-- Padded-bounds width used by `ensureFit`:
`const worldW = Math.max(1, v.maxX - v.minX);` -/
def worldWOf (v : View) : ℚ := max 1 (v.maxX - v.minX)

/-- Padded-bounds height used by `ensureFit`:
`const worldH = Math.max(1, v.maxY - v.minY);` -/
def worldHOf (v : View) : ℚ := max 1 (v.maxY - v.minY)

/-- Function `ensureFit(w, h)` of `FleetCanvas.tsx` (lines 114-129): when
`_needsFit` is set, recompute `scale`, `tx`, `ty` from the stored world
bounding box and clear the flag; otherwise leave the view untouched. -/
def ensureFit (w h : ℚ) (v : View) : View :=
  if v.needsFit then
    let pad := v.pad
    let worldW := worldWOf v
    let worldH := worldHOf v
    let scale := min ((w - 2 * pad) / worldW) ((h - 2 * pad) / worldH)
    let tx := pad - v.minX * scale
    let ty := pad + v.maxY * (-scale)
    { v with scale := scale, tx := tx, ty := ty, needsFit := false }
  else v

/-- Function `worldToScreen(p, w, h)`: runs `ensureFit` first (as the source does
through `viewRef`), then applies the scale/translate with `yFlip = -1`. -/
def worldToScreen (w h : ℚ) (v : View) (p : Vec) : Vec :=
  let u := ensureFit w h v
  ⟨p.x * u.scale + u.tx, p.y * u.scale * (-1) + u.ty⟩

/-- Function `screenToWorld(p, w, h)`: runs `ensureFit` first, then inverts the
scale/translate with `yFlip = -1`. -/
def screenToWorld (w h : ℚ) (v : View) (p : Vec) : Vec :=
  let u := ensureFit w h v
  ⟨(p.x - u.tx) / u.scale, (p.y - u.ty) / (u.scale * (-1))⟩

/-- Source constant `const zoomIntensity = 1.15;`. -/
def zoomIntensity : ℚ := 23 / 20

/-- The view part of `onWheel` in `FleetCanvas.tsx` (lines 148-170):
world point under the cursor, multiplicative zoom clamped to
`[0.1, 50]`, then a translation fix-up so that point stays under the
cursor.  `screenToWorld` runs `ensureFit` and mutates `viewRef`, hence
the explicit `ensureFit` before the scale update. -/
def onWheel (w h mx my : ℚ) (deltaYPos : Bool) (v0 : View) : View :=
  let before := screenToWorld w h v0 ⟨mx, my⟩
  let v := ensureFit w h v0
  let factor : ℚ := if deltaYPos then 1 / zoomIntensity else zoomIntensity
  let v1 := { v with scale := clamp (v.scale * factor) (1 / 10) 50 }
  let after := worldToScreen w h v1 before
  { v1 with tx := v1.tx + mx - after.x, ty := v1.ty + my - after.y }

/-! ## Trail store (`ws.onmessage`, shared by both variants) -/

/-- Source steps `findIndex(s => s.jid === jid)` followed by `splice(i, 1)`: remove
the first segment with the given `jid`, if any. -/
def removeFirst (jid : String) : List Segment → List Segment
  | [] => []
  | s :: rest => if s.jid = jid then rest else s :: removeFirst jid rest

/-- Source loop `while (recent.length > RECENT_LIMIT) older.unshift(recent.pop()!)`:
repeatedly demote the oldest (last) element of `recent` to the front of
`older`. -/
def demote (recent older : List Segment) : List Segment × List Segment :=
  if h : RECENT_LIMIT < recent.length then
    demote recent.dropLast
      (recent.getLast (by rintro rfl; simp [RECENT_LIMIT] at h) :: older)
  else (recent, older)
termination_by recent.length
decreasing_by
  simp only [List.length_dropLast]
  omega

/-- The per-trail part of the journey branch of `ws.onmessage`
(`FleetCanvas.tsx` lines 91-97): drop any segment with the same
`journey_id` from `recent` and `older`, prepend the new segment to
`recent`, then demote overflow into `older`. -/
def ingestSegment (seg : Segment) (t : ShipTrail) : ShipTrail :=
  let r1 := removeFirst seg.jid t.recent
  let o1 := removeFirst seg.jid t.older
  let p := demote (seg :: r1) o1
  { recent := p.1, older := p.2 }

/-- Journey ids occurring in a list of segments. -/
def jids (l : List Segment) : List String := l.map Segment.jid

/-- Journey ids occurring anywhere in a trail (`recent ∪ older`). -/
def trailJids (t : ShipTrail) : List String := jids (t.recent ++ t.older)

/-- Replay of a sequence of (already validated) journey events for one
ship, starting from the empty trail. -/
def replay (segs : List Segment) : ShipTrail :=
  segs.foldl (fun t s => ingestSegment s t) ⟨[], []⟩

/-! ## FleetCanvas2 variant -/

/-- Camera state of `FleetCanvas2.tsx`: `_needsFit?: boolean` is tested
by JavaScript truthiness *and* by the nullish-coalescing assignment
`v._needsFit = v._needsFit ?? true`, which distinguishes `undefined`
from `false`, so it is an `Option Bool` here; `baseScale?: number` is
an `Option ℚ` (tested for truthiness, where `0` is falsy). -/
structure View2 where
  scale : ℚ
  tx : ℚ
  ty : ℚ
  pad : ℚ
  minX : ℚ
  maxX : ℚ
  minY : ℚ
  maxY : ℚ
  needsFit : Option Bool
  baseScale : Option ℚ
deriving DecidableEq

/-- Function `ensureFit(w, h)` of `FleetCanvas2.tsx` (lines 128-142): the fit
runs only when `_needsFit` is truthy (`some true`); it also records the
first fitted scale into `baseScale` when that is still falsy. -/
def ensureFit2 (w h : ℚ) (v : View2) : View2 :=
  if v.needsFit = some true then
    let pad := v.pad
    let worldW := max 1 (v.maxX - v.minX)
    let worldH := max 1 (v.maxY - v.minY)
    let scale := min ((w - 2 * pad) / worldW) ((h - 2 * pad) / worldH)
    let tx := pad - v.minX * scale
    let ty := pad + v.maxY * (-scale)
    let base := if v.baseScale = none ∨ v.baseScale = some 0
      then some scale else v.baseScale
    { v with scale := scale, tx := tx, ty := ty,
             needsFit := some false, baseScale := base }
  else v

/-- Function `worldToScreen` of `FleetCanvas2.tsx` (lines 143-147). -/
def worldToScreen2 (w h : ℚ) (v : View2) (p : Vec) : Vec :=
  let u := ensureFit2 w h v
  ⟨p.x * u.scale + u.tx, p.y * u.scale * (-1) + u.ty⟩

/-- Function `screenToWorld` of `FleetCanvas2.tsx` (lines 148-152). -/
def screenToWorld2 (w h : ℚ) (v : View2) (p : Vec) : Vec :=
  let u := ensureFit2 w h v
  ⟨(p.x - u.tx) / u.scale, (p.y - u.ty) / (u.scale * (-1))⟩

/-- Handler `onWheel` of `FleetCanvas2.tsx` (lines 174-188): as in the basic
variant but with the zoom clamped to `[0.05, 200]` and no
`userAdjusted` latch. -/
def onWheel2 (w h mx my : ℚ) (deltaYPos : Bool) (v0 : View2) : View2 :=
  let before := screenToWorld2 w h v0 ⟨mx, my⟩
  let v := ensureFit2 w h v0
  let factor : ℚ := if deltaYPos then 1 / zoomIntensity else zoomIntensity
  let v1 := { v with scale := clamp (v.scale * factor) (1 / 20) 200 }
  let after := worldToScreen2 w h v1 before
  { v1 with tx := v1.tx + mx - after.x, ty := v1.ty + my - after.y }

/-- The view update of the journey branch of `ws.onmessage` in
`FleetCanvas2.tsx` (lines 115-122): widen the world bounds to include
both endpoints and run `v._needsFit = v._needsFit ?? true` (set only
when still `undefined`). -/
def journeyWiden2 (seg : Segment) (v : View2) : View2 :=
  { v with
    minX := min v.minX (min seg.fromPt.x seg.toPt.x)
    maxX := max v.maxX (max seg.fromPt.x seg.toPt.x)
    minY := min v.minY (min seg.fromPt.y seg.toPt.y)
    maxY := max v.maxY (max seg.fromPt.y seg.toPt.y)
    needsFit := match v.needsFit with
      | none => some true
      | some b => some b }

/-- Handler `onDblClick` of `FleetCanvas2.tsx` (line 209):
`v._needsFit = true;`. -/
def onDblClick2 (v : View2) : View2 := { v with needsFit := some true }

/-! ## Session state machine (`FleetCanvas.tsx`) -/

/-- Parsed shape of an incoming stream message (`JourneyEvt` with the
nullable coordinates kept nullable). -/
structure RawEvt where
  type : String
  journey_id : String
  ship_symbol : String
  departure_ts : ℚ
  arrival_ts : ℚ
  originX : Option ℚ
  originY : Option ℚ
  destX : Option ℚ
  destY : Option ℚ
deriving DecidableEq

/-- An incoming stream message: either unparsable JSON (the `catch`
branch of `JSON.parse`) or a parsed event. -/
inductive Msg where
  | malformed : Msg
  | parsed : RawEvt → Msg
deriving DecidableEq

/-- The whole mutable state of one `FleetCanvas` session: `viewRef`
(`null` before the waypoint fetch resolves), `userAdjustedRef`, and
`trailsRef` as an insertion-ordered association list. -/
structure SessionState where
  view : Option View
  userAdjusted : Bool
  trails : List (String × ShipTrail)
deriving DecidableEq

/-- Initial state: `viewRef.current = null`,
`userAdjustedRef.current = false`, empty trails map. -/
def initState : SessionState := ⟨none, false, []⟩

/-- Map update `trailsRef.current.get(ship)` / `set(ship, trail)`: update the trail
of one ship in the insertion-ordered map, creating it if absent. -/
def updateTrails (ship : String) (seg : Segment)
    (ts : List (String × ShipTrail)) : List (String × ShipTrail) :=
  match ts with
  | [] => [(ship, ingestSegment seg ⟨[], []⟩)]
  | (k, t) :: rest =>
    if k = ship then (k, ingestSegment seg t) :: rest
    else (k, t) :: updateTrails ship seg rest

/-- The bounds-widening part of the journey branch of `ws.onmessage`
in `FleetCanvas.tsx` (lines 100-108): widen the bbox and set
`_needsFit` only when the user has not interacted yet. -/
def journeyWiden (seg : Segment) (userAdjusted : Bool) (v : View) : View :=
  { v with
    minX := min v.minX (min seg.fromPt.x seg.toPt.x)
    maxX := max v.maxX (max seg.fromPt.x seg.toPt.x)
    minY := min v.minY (min seg.fromPt.y seg.toPt.y)
    maxY := max v.maxY (max seg.fromPt.y seg.toPt.y)
    needsFit := if userAdjusted then v.needsFit else true }

/-- Handler `ws.onmessage` of `FleetCanvas.tsx` (lines 73-109): drop unparsable
messages, non-`"journey"` messages, and events with a null endpoint
coordinate; otherwise build the segment, ingest it into the ship's
trail, and widen the view bounds when a view exists. -/
def handleMsg (m : Msg) (s : SessionState) : SessionState :=
  match m with
  | .malformed => s
  | .parsed e =>
    if e.type ≠ "journey" then s
    else match e.originX, e.originY, e.destX, e.destY with
      | some ox, some oy, some dx, some dy =>
        let seg : Segment :=
          ⟨e.journey_id, ⟨ox, oy⟩, ⟨dx, dy⟩,
            e.departure_ts * 1000, e.arrival_ts * 1000⟩
        let s1 := { s with trails := updateTrails e.ship_symbol seg s.trails }
        match s1.view with
        | none => s1
        | some v => { s1 with view := some (journeyWiden seg s.userAdjusted v) }
      | _, _, _, _ => s

/-- Handler `onDblClick` of `FleetCanvas.tsx` (lines 195-210): widen the bbox by
every stored segment, request a refit, and keep auto-fit disabled. -/
def dblClickView (ts : List (String × ShipTrail)) (v : View) : View :=
  let segs := ts.flatMap (fun kt => kt.2.recent ++ kt.2.older)
  let v1 := segs.foldl
    (fun u s =>
      { u with
        minX := min u.minX (min s.fromPt.x s.toPt.x)
        maxX := max u.maxX (max s.fromPt.x s.toPt.x)
        minY := min u.minY (min s.fromPt.y s.toPt.y)
        maxY := max u.maxY (max s.fromPt.y s.toPt.y) }) v
  { v1 with needsFit := true }

/-- The asynchronous callbacks that mutate the session state. -/
inductive Event where
  /-- Resolution of the waypoint fetch (lines 49-68): fresh view from
  the waypoint bbox, `_needsFit = true`, `userAdjusted = false`. -/
  | load (minX maxX minY maxY : ℚ) : Event
  /-- A stream message (`ws.onmessage`). -/
  | msg (m : Msg) : Event
  /-- A wheel gesture (`onWheel`): latches `userAdjusted`. -/
  | wheel (w h mx my : ℚ) (deltaYPos : Bool) : Event
  /-- A pointer-down starting a drag (`onPointerDown`): latches
  `userAdjusted`. -/
  | pointerDown : Event
  /-- A drag movement (`onPointerMove` while dragging): translation. -/
  | pointerMove (dx dy : ℚ) : Event
  /-- A double-click reset (`onDblClick`): latches `userAdjusted`. -/
  | dblClick : Event
  /-- One render-loop tick (`draw` calling `ensureFit`). -/
  | frame (w h : ℚ) : Event
deriving DecidableEq

/-- One step of the session: what each callback of `FleetCanvas.tsx`
does to the refs.  Every view-reading handler starts with
`const v = viewRef.current; if (!v) return;`. -/
def step (e : Event) (s : SessionState) : SessionState :=
  match e with
  | .load minX maxX minY maxY =>
    { s with view := some ⟨1, 0, 0, 40, minX, maxX, minY, maxY, true⟩,
             userAdjusted := false }
  | .msg m => handleMsg m s
  | .wheel w h mx my d =>
    match s.view with
    | none => s
    | some v =>
      { s with view := some (onWheel w h mx my d v), userAdjusted := true }
  | .pointerDown =>
    match s.view with
    | none => s
    | some _ => { s with userAdjusted := true }
  | .pointerMove dx dy =>
    match s.view with
    | none => s
    | some v => { s with view := some { v with tx := v.tx + dx, ty := v.ty + dy } }
  | .dblClick =>
    match s.view with
    | none => s
    | some v =>
      { s with view := some (dblClickView s.trails v), userAdjusted := true }
  | .frame w h =>
    match s.view with
    | none => s
    | some v => { s with view := some (ensureFit w h v) }

/-- Fold a list of events over the session state. -/
def runEvents (s : SessionState) (es : List Event) : SessionState :=
  es.foldl (fun a e => step e a) s

/-- Whether an event is the waypoint-fetch resolution; the fetch of the
mount-time `useEffect` resolves at most once per session. -/
def isLoad : Event → Bool
  | .load _ _ _ _ => true
  | _ => false

/-- Number of waypoint-fetch resolutions in a trace. -/
def loadCount (es : List Event) : Nat := (es.filter isLoad).length

/-- Projection of the `_needsFit` flag of the session's view, if a view exists. -/
def needsFitOf (s : SessionState) : Option Bool := s.view.map View.needsFit

/-- The initial view built by the waypoint loader for a list of waypoint
positions (lines 52-60): the waypoint bbox, or `[-100, 100]²` when the
list is empty. -/
def loadView (wps : List (ℚ × ℚ)) : View :=
  let minX := if wps = [] then -100 else (wps.map Prod.fst).foldl min (wps.map Prod.fst).headI
  let maxX := if wps = [] then 100 else (wps.map Prod.fst).foldl max (wps.map Prod.fst).headI
  let minY := if wps = [] then -100 else (wps.map Prod.snd).foldl min (wps.map Prod.snd).headI
  let maxY := if wps = [] then 100 else (wps.map Prod.snd).foldl max (wps.map Prod.snd).headI
  ⟨1, 0, 0, 40, minX, maxX, minY, maxY, true⟩

/-! ## Interpolation (`draw`, active segment) -/

/-- Source line `const t = (now - active.depMs) / (active.arrMs - active.depMs);` -/
def progressFraction (depMs arrMs now : ℚ) : ℚ :=
  (now - depMs) / (arrMs - depMs)

/-! ## Trail-store lemmas -/

/-- The demotion loop moves exactly the overflow tail of `recent`, in
order, onto the front of `older`. -/
theorem demote_eq (r o : List Segment) :
    demote r o = (r.take RECENT_LIMIT, r.drop RECENT_LIMIT ++ o) := by
  induction r, o using demote.induct with
  | case1 r o h ih =>
    rw [demote, dif_pos h, ih]
    have hlen : RECENT_LIMIT ≤ r.dropLast.length := by
      simp only [List.length_dropLast]; omega
    have hr : r.dropLast ++ [r.getLast (by rintro rfl; simp [RECENT_LIMIT] at h)] = r :=
      List.dropLast_append_getLast _
    rw [Prod.mk.injEq]
    refine ⟨?_, ?_⟩
    · conv_rhs => rw [← hr]
      rw [List.take_append_of_le_length hlen]
    · conv_rhs => rw [← hr]
      rw [List.drop_append_of_le_length hlen]
      simp
  | case2 r o h =>
    rw [demote, dif_neg h]
    have hle : r.length ≤ RECENT_LIMIT := by omega
    simp [List.take_of_length_le hle, List.drop_of_length_le hle]

theorem ingestSegment_recent (seg : Segment) (t : ShipTrail) :
    (ingestSegment seg t).recent =
      (seg :: removeFirst seg.jid t.recent).take RECENT_LIMIT := by
  simp [ingestSegment, demote_eq]

theorem ingestSegment_older (seg : Segment) (t : ShipTrail) :
    (ingestSegment seg t).older =
      (seg :: removeFirst seg.jid t.recent).drop RECENT_LIMIT ++
        removeFirst seg.jid t.older := by
  simp [ingestSegment, demote_eq]

/-- Lemma: `removeFirst` only removes: the result is a sublist. -/
theorem removeFirst_sublist (jid : String) (l : List Segment) :
    List.Sublist (removeFirst jid l) l := by
  induction l with
  | nil => simp [removeFirst]
  | cons s rest ih =>
    rw [removeFirst]
    by_cases hs : s.jid = jid
    · simp only [hs, if_pos]
      exact (List.sublist_cons_self s rest)
    · simp only [hs, if_neg, not_false_iff]
      exact ih.cons₂ s

/-- When a `jid` occurs at most once, removing its first occurrence
removes every occurrence. -/
theorem not_mem_jids_removeFirst (jid : String) (l : List Segment)
    (hc : (jids l).count jid ≤ 1) : jid ∉ jids (removeFirst jid l) := by
  induction l with
  | nil => simp [removeFirst, jids]
  | cons s rest ih =>
    rw [removeFirst]
    by_cases hs : s.jid = jid
    · simp only [hs, if_pos]
      have : (jids (s :: rest)).count jid = (jids rest).count jid + 1 := by
        simp [jids, List.count_cons, hs]
      intro hmem
      have := List.count_pos_iff.mpr hmem
      omega
    · simp only [hs, if_neg, not_false_iff]
      have hc' : (jids rest).count jid ≤ 1 := by
        have : (jids (s :: rest)).count jid = (jids rest).count jid := by
          simp [jids, List.count_cons, hs]
        omega
      intro hmem
      simp only [jids, List.map_cons, List.mem_cons] at hmem
      rcases hmem with h | h
      · exact hs h.symm
      · exact ih hc' (by simpa [jids] using h)

/-- Splitting `trailJids` after an ingest: the new `jid` in front of the
surviving ids. -/
theorem trailJids_ingestSegment (seg : Segment) (t : ShipTrail) :
    trailJids (ingestSegment seg t) =
      seg.jid :: (jids (removeFirst seg.jid t.recent) ++
                   jids (removeFirst seg.jid t.older)) := by
  rw [trailJids, ingestSegment_recent, ingestSegment_older, ← List.append_assoc,
    List.take_append_drop]
  simp [jids]

/-- One ingest preserves distinctness of the stored journey ids. -/
theorem nodup_trailJids_ingestSegment (seg : Segment) (t : ShipTrail)
    (h : (trailJids t).Nodup) : (trailJids (ingestSegment seg t)).Nodup := by
  have hsplit : trailJids t = jids t.recent ++ jids t.older := by
    simp [trailJids, jids]
  rw [hsplit] at h
  have hcR : (jids t.recent).count seg.jid ≤ 1 :=
    List.nodup_iff_count_le_one.mp h.of_append_left seg.jid
  have hcO : (jids t.older).count seg.jid ≤ 1 :=
    List.nodup_iff_count_le_one.mp h.of_append_right seg.jid
  have hsub : List.Sublist
      (jids (removeFirst seg.jid t.recent) ++ jids (removeFirst seg.jid t.older))
      (jids t.recent ++ jids t.older) :=
    List.Sublist.append ((removeFirst_sublist _ _).map _) ((removeFirst_sublist _ _).map _)
  rw [trailJids_ingestSegment, List.nodup_cons]
  refine ⟨?_, h.sublist hsub⟩
  intro hmem
  rcases List.mem_append.mp hmem with hm | hm
  · exact not_mem_jids_removeFirst _ _ hcR hm
  · exact not_mem_jids_removeFirst _ _ hcO hm

/-- Distinctness of journey ids holds in every reachable trail. -/
theorem nodup_trailJids_replay (segs : List Segment) :
    (trailJids (replay segs)).Nodup := by
  suffices hgen : ∀ t : ShipTrail, (trailJids t).Nodup →
      (trailJids (segs.foldl (fun a s => ingestSegment s a) t)).Nodup by
    exact hgen ⟨[], []⟩ (by simp [trailJids, jids])
  induction segs with
  | nil => intro t ht; simp only [List.foldl_nil]; exact ht
  | cons s rest ih =>
    intro t ht
    exact ih _ (nodup_trailJids_ingestSegment s t ht)

/-! ## Claim theorems: trail store -/

/-- C4: after any journey event for a ship, `recent` holds at most
`RECENT_LIMIT = 5` segments; the new `recent` is exactly the first
`RECENT_LIMIT` entries of the replaced-and-prepended list, the overflow
tail is demoted in order onto the front of `older` (its head was the
oldest member of `recent`), and the demotion neither drops nor
duplicates any segment (`recent ++ older` is preserved). -/
theorem ingest_recent_bounded_fifo (t : ShipTrail) (seg : Segment) :
    (ingestSegment seg t).recent.length ≤ RECENT_LIMIT ∧
    (ingestSegment seg t).recent =
      (seg :: removeFirst seg.jid t.recent).take RECENT_LIMIT ∧
    (ingestSegment seg t).older =
      (seg :: removeFirst seg.jid t.recent).drop RECENT_LIMIT ++
        removeFirst seg.jid t.older ∧
    (ingestSegment seg t).recent ++ (ingestSegment seg t).older =
      (seg :: removeFirst seg.jid t.recent) ++ removeFirst seg.jid t.older := by
  refine ⟨?_, ingestSegment_recent seg t, ingestSegment_older seg t, ?_⟩
  · rw [ingestSegment_recent]
    simp only [List.length_take]
    exact Nat.min_le_left RECENT_LIMIT _
  · rw [ingestSegment_recent, ingestSegment_older, ← List.append_assoc,
      List.take_append_drop]

/-- C5: in every trail reachable from the empty trail, the journey ids
of `recent ∪ older` are pairwise distinct, and delivering an event
replaces any segment with the same `journey_id`, so that id afterwards
occurs exactly once. -/
theorem ingest_jid_unique (segs : List Segment) (seg : Segment) :
    (trailJids (replay segs)).Nodup ∧
    (trailJids (ingestSegment seg (replay segs))).Nodup ∧
    (trailJids (ingestSegment seg (replay segs))).count seg.jid = 1 := by
  have h0 := nodup_trailJids_replay segs
  have h1 := nodup_trailJids_ingestSegment seg _ h0
  refine ⟨h0, h1, ?_⟩
  rw [trailJids_ingestSegment] at h1 ⊢
  rcases List.nodup_cons.mp h1 with ⟨hnot, _⟩
  simp [List.count_cons, List.count_eq_zero.mpr hnot]

/-! ## Transform lemmas -/

/-- With the fit flag cleared, `ensureFit` leaves the view untouched. -/
theorem ensureFit_of_cleared (w h : ℚ) (v : View) (hv : v.needsFit = false) :
    ensureFit w h v = v := by
  simp [ensureFit, hv]

/-- With the fit flag not truthy, `ensureFit2` leaves the view
untouched. -/
theorem ensureFit2_of_cleared (w h : ℚ) (v : View2) (hv : v.needsFit ≠ some true) :
    ensureFit2 w h v = v := by
  simp [ensureFit2, hv]

/-! ## Claim theorems: coordinate transform -/

/-- C2: for every point and every valid (fit-flag cleared, non-zero
scale) view, `screenToWorld` exactly inverts `worldToScreen` over exact
rational arithmetic. -/
theorem screenToWorld_worldToScreen_roundtrip (w h : ℚ) (v : View) (p : Vec)
    (hv : v.needsFit = false) (hs : v.scale ≠ 0) :
    screenToWorld w h v (worldToScreen w h v p) = p := by
  simp only [worldToScreen, screenToWorld, ensureFit_of_cleared w h v hv]
  ext
  · show (p.x * v.scale + v.tx - v.tx) / v.scale = p.x
    field_simp
  · show (p.y * v.scale * (-1) + v.ty - v.ty) / (v.scale * (-1)) = p.y
    field_simp

/-- Witness for C2 at a concrete view and point. -/
theorem screenToWorld_worldToScreen_roundtrip_witness :
    ((⟨2, 3, 4, 40, -100, 100, -100, 100, false⟩ : View).needsFit = false ∧
      (⟨2, 3, 4, 40, -100, 100, -100, 100, false⟩ : View).scale ≠ 0) ∧
    screenToWorld 400 300 ⟨2, 3, 4, 40, -100, 100, -100, 100, false⟩
        (worldToScreen 400 300 ⟨2, 3, 4, 40, -100, 100, -100, 100, false⟩ ⟨5, 7⟩) =
      ⟨5, 7⟩ :=
  ⟨⟨rfl, by norm_num⟩,
    screenToWorld_worldToScreen_roundtrip 400 300 _ _ rfl (by norm_num)⟩

/-- C3: a wheel-zoom gesture anchored at screen point `(mx, my)` leaves
the pre-zoom world point under the cursor at the same screen position,
in both canvas variants. -/
theorem wheel_zoom_anchor_fixed :
    (∀ (w h mx my : ℚ) (d : Bool) (v : View), v.needsFit = false → v.scale ≠ 0 →
      worldToScreen w h (onWheel w h mx my d v)
        (screenToWorld w h v ⟨mx, my⟩) = ⟨mx, my⟩) ∧
    (∀ (w h mx my : ℚ) (d : Bool) (v : View2), v.needsFit ≠ some true → v.scale ≠ 0 →
      worldToScreen2 w h (onWheel2 w h mx my d v)
        (screenToWorld2 w h v ⟨mx, my⟩) = ⟨mx, my⟩) := by
  constructor
  · intro w h mx my d v hv hs
    simp only [onWheel, worldToScreen, screenToWorld, ensureFit, hv,
      Bool.false_eq_true, if_false]
    ext <;> (simp only []; ring)
  · intro w h mx my d v hv hs
    simp only [onWheel2, worldToScreen2, screenToWorld2, ensureFit2, hv,
      if_neg, if_false]
    ext <;> (simp only []; ring)

/-- Witness for C3 at concrete views, both variants. -/
theorem wheel_zoom_anchor_fixed_witness :
    (((⟨2, 3, 4, 40, -100, 100, -100, 100, false⟩ : View).needsFit = false ∧
        (⟨2, 3, 4, 40, -100, 100, -100, 100, false⟩ : View).scale ≠ 0) ∧
      worldToScreen 400 300
          (onWheel 400 300 17 19 false ⟨2, 3, 4, 40, -100, 100, -100, 100, false⟩)
          (screenToWorld 400 300 ⟨2, 3, 4, 40, -100, 100, -100, 100, false⟩ ⟨17, 19⟩) =
        ⟨17, 19⟩) ∧
    (((⟨2, 3, 4, 40, -100, 100, -100, 100, some false, none⟩ : View2).needsFit ≠ some true ∧
        (⟨2, 3, 4, 40, -100, 100, -100, 100, some false, none⟩ : View2).scale ≠ 0) ∧
      worldToScreen2 400 300
          (onWheel2 400 300 17 19 false ⟨2, 3, 4, 40, -100, 100, -100, 100, some false, none⟩)
          (screenToWorld2 400 300 ⟨2, 3, 4, 40, -100, 100, -100, 100, some false, none⟩ ⟨17, 19⟩) =
        ⟨17, 19⟩) :=
  ⟨⟨⟨rfl, by norm_num⟩,
      wheel_zoom_anchor_fixed.1 400 300 17 19 false _ rfl (by norm_num)⟩,
    ⟨⟨by simp, by norm_num⟩,
      wheel_zoom_anchor_fixed.2 400 300 17 19 false _ (by simp) (by norm_num)⟩⟩

/-! ## Claim theorems: interpolation -/

/-- C7: for a segment departing at `T0` and arriving at `T0 + 1000`, the
linear interpolation fraction is exactly `1/2` at `T0 + 500`, its
clamped value is `0` for every `now ≤ T0`, and `1` for every
`now ≥ T0 + 1000`. -/
theorem active_interpolation_fraction (T0 now : ℚ) :
    progressFraction T0 (T0 + 1000) (T0 + 500) = 1 / 2 ∧
    (now ≤ T0 → clamp01 (progressFraction T0 (T0 + 1000) now) = 0) ∧
    (T0 + 1000 ≤ now → clamp01 (progressFraction T0 (T0 + 1000) now) = 1) := by
  have hd : T0 + 1000 - T0 = 1000 := by ring
  refine ⟨?_, ?_, ?_⟩
  · rw [progressFraction, hd]
    norm_num
  · intro hle
    rw [progressFraction, hd, clamp01, clamp]
    have hx : (now - T0) / 1000 ≤ 0 := by
      apply div_nonpos_of_nonpos_of_nonneg <;> [linarith; norm_num]
    rw [min_eq_right (le_trans hx (by norm_num)), max_eq_left hx]
  · intro hge
    rw [progressFraction, hd, clamp01, clamp]
    have hx : (1 : ℚ) ≤ (now - T0) / 1000 := by
      rw [le_div_iff₀ (by norm_num)]
      linarith
    rw [min_eq_left hx]
    norm_num

/-- Witness for C7 at `T0 = 0`, `now ∈ {-5, 500, 2000}`. -/
theorem active_interpolation_fraction_witness :
    progressFraction 0 1000 500 = 1 / 2 ∧
    clamp01 (progressFraction 0 1000 (-5)) = 0 ∧
    clamp01 (progressFraction 0 1000 2000) = 1 := by
  refine ⟨?_, ?_, ?_⟩
  · have h := (active_interpolation_fraction 0 0).1
    norm_num at h ⊢
    exact h
  · have h := (active_interpolation_fraction 0 (-5)).2.1 (by norm_num)
    norm_num at h ⊢
    exact h
  · have h := (active_interpolation_fraction 0 2000).2.2 (by norm_num)
    norm_num at h ⊢
    exact h

/-! ## Claim theorems: degenerate bounds -/

/-- C8: the fit floors the world width and height at one world unit, so
both divisors are strictly positive for every view; in particular a
single waypoint at `(50, 50)` fit into a `400 × 300` viewport with
`pad = 40` yields the well-defined scale `min (320/1) (220/1) = 220`. -/
theorem fit_degenerate_bounds_guard :
    (∀ v : View, 0 < worldWOf v ∧ 0 < worldHOf v) ∧
    (ensureFit 400 300 (loadView [(50, 50)])).scale = 220 ∧
    (ensureFit 400 300 (loadView [(50, 50)])).needsFit = false := by
  refine ⟨fun v => ⟨?_, ?_⟩,
    by norm_num [ensureFit, loadView, worldWOf, worldHOf, min_def],
    by norm_num [ensureFit, loadView]⟩
  · exact lt_of_lt_of_le one_pos (le_max_left _ _)
  · exact lt_of_lt_of_le one_pos (le_max_left _ _)

/-! ## Claim theorems: fit-to-bounds corner mapping -/

/-- The view produced by loading a symmetric `[-100, 100]²` waypoint
bounding box, before the first fit. -/
def fitDemoView : View := ⟨1, 0, 0, 40, -100, 100, -100, 100, true⟩

/-- C1 (evaluation at the failing input): fitting the `[-100, 100]²`
bounding box into a `400 × 300` viewport with `pad = 40` yields
`scale = 11/10`, yet the bounding box's top-left world corner
`(minX, maxY) = (-100, 100)` maps to the screen point `(40, -180)`, not
to `(pad, pad) = (40, 40)`: because `ensureFit` computes
`ty = pad + maxY * (-scale)` while `worldToScreen` computes
`-y * scale + ty`, the corner lands at `pad - 2 * maxY * scale`. -/
theorem ensureFit_topLeft_corner_misses_pad :
    (ensureFit 400 300 fitDemoView).scale = 11 / 10 ∧
    fitDemoView.pad = 40 ∧
    worldToScreen 400 300 fitDemoView ⟨fitDemoView.minX, fitDemoView.maxY⟩ =
      ⟨40, -180⟩ ∧
    (⟨40, -180⟩ : Vec) ≠ (⟨40, 40⟩ : Vec) := by
  refine ⟨?_, rfl, ?_, by decide⟩
  · norm_num [ensureFit, fitDemoView, worldWOf, worldHOf, min_def]
  · ext
    · show fitDemoView.minX * (ensureFit 400 300 fitDemoView).scale +
        (ensureFit 400 300 fitDemoView).tx = 40
      norm_num [ensureFit, fitDemoView, worldWOf, worldHOf, min_def]
    · show fitDemoView.maxY * (ensureFit 400 300 fitDemoView).scale * (-1) +
        (ensureFit 400 300 fitDemoView).ty = -180
      norm_num [ensureFit, fitDemoView, worldWOf, worldHOf, min_def]

/-! ## Claim theorems: malformed stream messages -/

/-- A stream message the handler must ignore: unparsable JSON, a type
other than `"journey"`, or a null endpoint coordinate. -/
def badMsg (m : Msg) : Prop :=
  m = .malformed ∨ ∃ e, m = .parsed e ∧
    (e.type ≠ "journey" ∨ e.originX = none ∨ e.originY = none ∨
      e.destX = none ∨ e.destY = none)

/-- C9: a malformed, non-journey, or coordinate-less stream message
leaves the whole session state (all trails and the view) unchanged; the
handler is total, so no error is raised. -/
theorem bad_message_is_noop (s : SessionState) (m : Msg) (hm : badMsg m) :
    step (.msg m) s = s := by
  rcases hm with rfl | ⟨e, rfl, hbad⟩
  · rfl
  · obtain ⟨ty, jid, ship, dep, arr, ox, oy, dx, dy⟩ := e
    by_cases hty : ty ≠ "journey"
    · simp [step, handleMsg, hty]
    · push_neg at hty
      subst hty
      cases ox <;> cases oy <;> cases dx <;> cases dy <;>
        simp_all [step, handleMsg]

/-- Witness for C9: a journey message with a null destination
coordinate is dropped, leaving a non-trivial state untouched. -/
theorem bad_message_is_noop_witness :
    badMsg (.parsed ⟨"journey", "J9", "SHIP-9", 10, 20, some 1, some 2, some 3, none⟩) ∧
    step (.msg (.parsed ⟨"journey", "J9", "SHIP-9", 10, 20, some 1, some 2, some 3, none⟩))
        ⟨some fitDemoView, false, [("SHIP-9", ⟨[], []⟩)]⟩ =
      ⟨some fitDemoView, false, [("SHIP-9", ⟨[], []⟩)]⟩ :=
  ⟨Or.inr ⟨_, rfl, Or.inr (Or.inr (Or.inr (Or.inr rfl)))⟩,
    bad_message_is_noop _ _ (Or.inr ⟨_, rfl, Or.inr (Or.inr (Or.inr (Or.inr rfl)))⟩)⟩

/-! ## Session-trace lemmas -/

theorem loadCount_append (a b : List Event) :
    loadCount (a ++ b) = loadCount a + loadCount b := by
  simp [loadCount, List.filter_append]

theorem runEvents_append (s : SessionState) (a b : List Event) :
    runEvents s (a ++ b) = runEvents (runEvents s a) b := by
  simp [runEvents, List.foldl_append]

/-- Lemma: `handleMsg` never touches the `userAdjusted` latch. -/
theorem handleMsg_userAdjusted (m : Msg) (s : SessionState) :
    (handleMsg m s).userAdjusted = s.userAdjusted := by
  rcases m with _ | e
  · rfl
  · rw [handleMsg]
    split
    · rfl
    · rcases e with ⟨ty, jid, ship, dep, arr, ox, oy, dx, dy⟩
      cases ox <;> cases oy <;> cases dx <;> cases dy <;>
        simp_all [handleMsg]
      cases hv : s.view <;> simp [hv]

/-- Before the waypoint fetch resolves, no event other than the load
creates a view or moves the latch. -/
theorem step_of_view_none (e : Event) (s : SessionState)
    (he : isLoad e = false) (hv : s.view = none) :
    (step e s).view = none ∧ (step e s).userAdjusted = s.userAdjusted := by
  cases e with
  | load a b c d => simp [isLoad] at he
  | msg m =>
    refine ⟨?_, handleMsg_userAdjusted m s⟩
    rcases m with _ | ev
    · exact hv
    · rw [step, handleMsg]
      split
      · exact hv
      · rcases ev with ⟨ty, jid, ship, dep, arr, ox, oy, dx, dy⟩
        cases ox <;> cases oy <;> cases dx <;> cases dy <;> simp_all
  | wheel w h mx my d => simp [step, hv]
  | pointerDown => simp [step, hv]
  | pointerMove dx dy => simp [step, hv]
  | dblClick => simp [step, hv]
  | frame w h => simp [step, hv]

/-- A load-free trace starting with no view keeps the latch where it
was. -/
theorem runEvents_of_view_none (es : List Event) (s : SessionState)
    (hnl : loadCount es = 0) (hv : s.view = none) :
    (runEvents s es).view = none ∧ (runEvents s es).userAdjusted = s.userAdjusted := by
  induction es generalizing s with
  | nil => exact ⟨hv, rfl⟩
  | cons e rest ih =>
    have he : isLoad e = false := by
      by_contra hc
      simp only [Bool.not_eq_false] at hc
      simp [loadCount, List.filter_cons, hc] at hnl
    have hrest : loadCount rest = 0 := by
      simp [loadCount, List.filter_cons, he] at hnl ⊢
      exact hnl
    obtain ⟨h1, h2⟩ := step_of_view_none e s he hv
    have := ih (step e s) hrest h1
    exact ⟨this.1, this.2.trans h2⟩

/-- No non-load event ever clears the latch. -/
theorem step_preserves_userAdjusted (e : Event) (s : SessionState)
    (he : isLoad e = false) (hua : s.userAdjusted = true) :
    (step e s).userAdjusted = true := by
  cases e with
  | load a b c d => simp [isLoad] at he
  | msg m => rw [step, handleMsg_userAdjusted]; exact hua
  | wheel w h mx my d => cases hv : s.view <;> simp [step, hv, hua]
  | pointerDown => cases hv : s.view <;> simp [step, hv, hua]
  | pointerMove dx dy => cases hv : s.view <;> simp [step, hv, hua]
  | dblClick => cases hv : s.view <;> simp [step, hv, hua]
  | frame w h => cases hv : s.view <;> simp [step, hv, hua]

/-- A load-free trace keeps the latch set. -/
theorem runEvents_preserves_userAdjusted (es : List Event) (s : SessionState)
    (hnl : loadCount es = 0) (hua : s.userAdjusted = true) :
    (runEvents s es).userAdjusted = true := by
  induction es generalizing s with
  | nil => exact hua
  | cons e rest ih =>
    have he : isLoad e = false := by
      by_contra hc
      simp only [Bool.not_eq_false] at hc
      simp [loadCount, List.filter_cons, hc] at hnl
    have hrest : loadCount rest = 0 := by
      simp [loadCount, List.filter_cons, he] at hnl ⊢
      exact hnl
    exact ih (step e s) hrest (step_preserves_userAdjusted e s he hua)

/-- With the latch set, a stream message never changes the fit flag. -/
theorem msg_preserves_needsFit (m : Msg) (s : SessionState)
    (hua : s.userAdjusted = true) :
    needsFitOf (step (.msg m) s) = needsFitOf s := by
  rcases m with _ | e
  · rfl
  · rw [step, handleMsg]
    split
    · rfl
    · rcases e with ⟨ty, jid, ship, dep, arr, ox, oy, dx, dy⟩
      cases ox <;> cases oy <;> cases dx <;> cases dy <;> simp_all
      cases hv : s.view with
      | none => simp [needsFitOf, hv]
      | some v => simp [needsFitOf, hv, journeyWiden, hua]

/-- The latch forces a load somewhere earlier in the trace. -/
theorem load_of_userAdjusted (es : List Event)
    (hua : (runEvents initState es).userAdjusted = true) : 1 ≤ loadCount es := by
  by_contra hc
  push_neg at hc
  have h0 : loadCount es = 0 := by omega
  have h := (runEvents_of_view_none es initState h0 rfl).2
  rw [hua] at h
  simp [initState] at h

/-! ## Claim theorems: userAdjusted latch -/

/-- C6: in any session trace in which the waypoint fetch resolves at
most once, once a user gesture has set `userAdjusted`, it stays set for
the rest of the trace, and every subsequent stream message (including a
bounds-widening journey event) leaves the view's `_needsFit` flag
unchanged. -/
theorem userAdjusted_latch_suppresses_refit (pre post : List Event)
    (hload : loadCount (pre ++ post) ≤ 1)
    (hua : (runEvents initState pre).userAdjusted = true) :
    (runEvents initState (pre ++ post)).userAdjusted = true ∧
    ∀ q m r, post = q ++ Event.msg m :: r →
      needsFitOf (step (Event.msg m) (runEvents initState (pre ++ q))) =
        needsFitOf (runEvents initState (pre ++ q)) := by
  have hpre : 1 ≤ loadCount pre := load_of_userAdjusted pre hua
  have hpost : loadCount post = 0 := by
    rw [loadCount_append] at hload
    omega
  constructor
  · rw [runEvents_append]
    exact runEvents_preserves_userAdjusted post _ hpost hua
  · intro q m r hq
    have hq0 : loadCount q = 0 := by
      subst hq
      rw [loadCount_append] at hpost
      omega
    have huaq : (runEvents initState (pre ++ q)).userAdjusted = true := by
      rw [runEvents_append]
      exact runEvents_preserves_userAdjusted q _ hq0 hua
    exact msg_preserves_needsFit m _ huaq

/-- A well-formed journey event used in the C6 witness. -/
def demoEvt : RawEvt :=
  ⟨"journey", "J1", "SHIP-1", 10, 20, some 0, some 0, some 200, some 150⟩

/-- Prefix of the C6 witness trace: waypoint load, then a drag start. -/
def demoPre : List Event := [.load (-100) 100 (-100) 100, .pointerDown]

/-- Suffix of the C6 witness trace: one bounds-widening journey. -/
def demoPost : List Event := [.msg (.parsed demoEvt)]

/-- Witness for C6: after a load and a drag, a bounds-widening journey
event keeps the latch set and does not dirty the fit flag. -/
theorem userAdjusted_latch_suppresses_refit_witness :
    (loadCount (demoPre ++ demoPost) ≤ 1 ∧
      (runEvents initState demoPre).userAdjusted = true) ∧
    ((runEvents initState (demoPre ++ demoPost)).userAdjusted = true ∧
      needsFitOf (step (Event.msg (.parsed demoEvt)) (runEvents initState (demoPre ++ []))) =
        needsFitOf (runEvents initState (demoPre ++ []))) :=
  ⟨⟨by decide, by decide⟩,
    ⟨(userAdjusted_latch_suppresses_refit demoPre demoPost (by decide) (by decide)).1,
      (userAdjusted_latch_suppresses_refit demoPre demoPost (by decide) (by decide)).2
        [] (.parsed demoEvt) [] rfl⟩⟩

/-! ## Claim theorems: FleetCanvas2 fit flag -/

/-- C10: in the enhanced variant, once a fit has cleared `_needsFit` to
`false`, `v._needsFit = v._needsFit ?? true` keeps it `false` through
any further sequence of journey events, `ensureFit` never refits, a
wheel zoom leaves the flag `false`, and only the double-click handler
sets it back to `true`. -/
theorem needsFit2_false_latch (v : View2) (hv : v.needsFit = some false) :
    (∀ segs : List Segment,
      (segs.foldl (fun u s => journeyWiden2 s u) v).needsFit = some false) ∧
    (∀ w h : ℚ, ensureFit2 w h v = v) ∧
    (∀ (w h mx my : ℚ) (d : Bool), (onWheel2 w h mx my d v).needsFit = some false) ∧
    (onDblClick2 v).needsFit = some true := by
  refine ⟨?_, ?_, ?_, by simp [onDblClick2]⟩
  · intro segs
    induction segs generalizing v with
    | nil => simp only [List.foldl_nil]; exact hv
    | cons s rest ih =>
      rw [List.foldl_cons]
      exact ih _ (by simp [journeyWiden2, hv])
  · intro w h
    exact ensureFit2_of_cleared w h v (by simp [hv])
  · intro w h mx my d
    simp only [onWheel2, ensureFit2_of_cleared w h v (by simp [hv])]
    exact hv

/-- The already-fitted view used in the C10 witness. -/
def demoView2 : View2 := ⟨1, 0, 0, 40, -100, 100, -100, 100, some false, some 1⟩

/-- The bounds-widening segment used in the C10 witness. -/
def demoSeg : Segment := ⟨"J1", ⟨0, 0⟩, ⟨200, 150⟩, 10000, 20000⟩

/-- Witness for C10 on a concrete fitted view and journey segment. -/
theorem needsFit2_false_latch_witness :
    demoView2.needsFit = some false ∧
    ([demoSeg].foldl (fun u s => journeyWiden2 s u) demoView2).needsFit = some false ∧
    ensureFit2 400 300 demoView2 = demoView2 ∧
    (onWheel2 400 300 17 19 false demoView2).needsFit = some false ∧
    (onDblClick2 demoView2).needsFit = some true :=
  ⟨rfl,
    (needsFit2_false_latch demoView2 rfl).1 [demoSeg],
    (needsFit2_false_latch demoView2 rfl).2.1 400 300,
    (needsFit2_false_latch demoView2 rfl).2.2.1 400 300 17 19 false,
    (needsFit2_false_latch demoView2 rfl).2.2.2⟩

end Fleet
